import Mathlib

/-!
Shallow embedding of the mcad AppWrapper reconciler
(`internal/controller/appwrapper_controller.go`).

The reconciler's external collaborators — the object-store client (`Get`,
`Update`, `Status().Update`), the dispatch selector (`dispatchNext`), wrapped
resource handling (`parseResources`, `createResources`, `deleteResources`) and
pod monitoring (`monitorPods`) — live outside the translated file.  One
reconciliation observes their outcomes through an `Env` record, and wall-clock
time through an explicit `now : Nat`.  The tunable timeouts live in a `Config`
record and the delay constants carried by requeue results are named by a
`Delay` tag.
-/

namespace Mcad

/-- AppWrapper phases (`mcadv1alpha1.AppWrapperPhase`); `empty` is Go's default
empty-string phase. -/
inductive AppWrapperPhase where
  | empty
  | Queued
  | Dispatching
  | Running
  | Succeeded
  | Failed
  | Requeuing
deriving DecidableEq

/-- The Go phase constants are strings; `string(phase)` is used as a condition
reason in `updateStatus`. -/
def phaseString : AppWrapperPhase → String
  | AppWrapperPhase.empty => ""
  | AppWrapperPhase.Queued => "Queued"
  | AppWrapperPhase.Dispatching => "Dispatching"
  | AppWrapperPhase.Running => "Running"
  | AppWrapperPhase.Succeeded => "Succeeded"
  | AppWrapperPhase.Failed => "Failed"
  | AppWrapperPhase.Requeuing => "Requeuing"

/-- One entry of `status.conditions` (`mcadv1alpha1.AppWrapperCondition`). -/
structure AppWrapperCondition where
  LastTransitionTime : Nat
  Reason : String
deriving DecidableEq

/-- The spec fields of an AppWrapper the reconciler reads. -/
structure AppWrapperSpec where
  MinPods : Int
  MaxRetries : Int
deriving DecidableEq

/-- The status of an AppWrapper (`mcadv1alpha1.AppWrapperStatus`). -/
structure AppWrapperStatus where
  Phase : AppWrapperPhase
  Requeued : Int
  LastDispatchTime : Nat
  LastRequeuingTime : Nat
  Conditions : List AppWrapperCondition
deriving DecidableEq

/-- An AppWrapper object: identity, deletion timestamp, finalizers, spec and
status. -/
structure AppWrapper where
  UID : Nat
  DeletionTimestamp : Option Nat
  Finalizers : List String
  Spec : AppWrapperSpec
  Status : AppWrapperStatus
deriving DecidableEq

/-- PodCounts summarize the status of the pods associated with one AppWrapper. -/
structure PodCounts where
  Failed : Int
  Other : Int
  Running : Int
  Succeeded : Int
deriving DecidableEq

/-- Cached AppWrapper status (`CachedAppWrapper`). -/
structure CachedAppWrapper where
  Phase : AppWrapperPhase
  Conditions : Nat
  Conflict : Option Nat
deriving DecidableEq

/-- The reconciler's phase cache `map[types.UID]*CachedAppWrapper`, as an
association list keyed by UID. -/
abbrev PhaseCache : Type := List (Nat × CachedAppWrapper)

/-- Map lookup on the phase cache. -/
def cacheLookup : PhaseCache → Nat → Option CachedAppWrapper
  | [], _ => none
  | (u, e) :: rest, uid => if u = uid then some e else cacheLookup rest uid

/-- Map deletion on the phase cache (`delete(r.Cache, uid)`). -/
def cacheDelete (cache : PhaseCache) (uid : Nat) : PhaseCache :=
  cache.filter fun p => p.1 != uid

/-- Map assignment on the phase cache (`r.Cache[uid] = e`). -/
def cacheInsert (cache : PhaseCache) (uid : Nat) (e : CachedAppWrapper) : PhaseCache :=
  (uid, e) :: cacheDelete cache uid

/-- Which requeue delay constant (`dispatchDelay`, `deletionDelay`,
`creationDelay`, defined outside the translated file) a result carries. -/
inductive Delay where
  | dispatch
  | deletion
  | creation
deriving DecidableEq

/-- `ctrl.Result`. -/
structure CtrlResult where
  Requeue : Bool
  RequeueAfter : Option Delay
deriving DecidableEq

/-- `ctrl.Result{}`. -/
def noResult : CtrlResult := { Requeue := false, RequeueAfter := none }

/-- The tunable timeouts (their definitions are outside the translated file;
the spec only constrains their rough magnitudes, so they stay parameters). -/
structure Config where
  creationTimeout : Nat
  deletionTimeout : Nat
  cacheConflictTimeout : Nat
deriving DecidableEq

/-- Outcome of the object-store `Get` for the requested AppWrapper. -/
inductive GetOutcome where
  | found : AppWrapper → GetOutcome
  | notFound : GetOutcome
  | transientErr : String → GetOutcome
deriving DecidableEq

/-- Outcomes of the external collaborators observed during one
reconciliation. -/
structure Env where
  getResult : GetOutcome
  dispatchNext : Except String (Option (AppWrapper × Bool))
  deleteResourcesCount : Nat
  monitorPods : Except String PodCounts
  parseErr : Bool
  createErr : Option String
  updateErr : Option String
  statusUpdateErr : Option String

/-- What one reconciliation produced: the `(ctrl.Result, error)` pair, the
in-memory AppWrapper it worked on (when one was loaded or selected), the phase
cache afterwards, and whether `triggerDispatchNext` was invoked. -/
structure ROut where
  res : CtrlResult
  err : Option String
  aw : Option AppWrapper
  cache : PhaseCache
  triggered : Bool
deriving DecidableEq

/-- The finalizer name `mcad.codeflare.dev/finalizer`. -/
def finalizer : String := "mcad.codeflare.dev/finalizer"

/-- Modelled from the spec: `isActivePhase` is repository code outside the
translated file; the spec's active phases are Dispatching, Running,
Requeuing. -/
def isActivePhase : AppWrapperPhase → Bool
  | AppWrapperPhase.Dispatching => true
  | AppWrapperPhase.Running => true
  | AppWrapperPhase.Requeuing => true
  | _ => false

/-- Modelled from the spec: `isSlowCreation` is repository code outside the
translated file; the spec defines it as `now − LastDispatchTime >
creationTimeout`. -/
def isSlowCreation (creationTimeout now : Nat) (appWrapper : AppWrapper) : Bool :=
  now > appWrapper.Status.LastDispatchTime + creationTimeout

/-- Modelled from the spec: `isSlowDeletion` is repository code outside the
translated file; the spec defines it as `now − LastRequeuingTime >
deletionTimeout`. -/
def isSlowDeletion (deletionTimeout now : Nat) (appWrapper : AppWrapper) : Bool :=
  now > appWrapper.Status.LastRequeuingTime + deletionTimeout

/-- `checkCache`: check whether our cache and the reconciler cache appear to
be in sync for this AppWrapper; returns the phase cache afterwards and the
error forcing a redo, if any. -/
def checkCache (now : Nat) (cacheConflictTimeout : Nat) (cache : PhaseCache)
    (appWrapper : AppWrapper) : PhaseCache × Option String :=
  match cacheLookup cache appWrapper.UID with
  | some cached =>
    if cached.Conditions > appWrapper.Status.Conditions.length then
      match cached.Conflict with
      | some conflict =>
        if now > conflict + cacheConflictTimeout then
          (cacheDelete cache appWrapper.UID, some "persistent cache conflict")
        else
          (cache, some "stale reconciler cache")
      | none =>
        (cacheInsert cache appWrapper.UID { cached with Conflict := some now },
          some "stale reconciler cache")
    else if cached.Conditions < appWrapper.Status.Conditions.length
        ∨ cached.Phase ≠ appWrapper.Status.Phase then
      (cacheDelete cache appWrapper.UID, some "stale phase cache")
    else
      (cacheInsert cache appWrapper.UID { cached with Conflict := none }, none)
  | none => (cache, none)

/-- `updateStatus`: log the transition as a condition, set the phase, persist
through the store (outcome supplied by `statusUpdateErr`), refresh the phase
cache on success and trigger dispatch when an active phase was left. -/
def updateStatus (statusUpdateErr : Option String) (now : Nat) (cache : PhaseCache)
    (appWrapper : AppWrapper) (phase : AppWrapperPhase) : ROut :=
  let activeBefore := isActivePhase appWrapper.Status.Phase
  let t := if phase = AppWrapperPhase.Dispatching then appWrapper.Status.LastDispatchTime
    else if phase = AppWrapperPhase.Requeuing then appWrapper.Status.LastRequeuingTime
    else now
  let condition : AppWrapperCondition := { LastTransitionTime := t, Reason := phaseString phase }
  let aw' : AppWrapper := { appWrapper with
    Status := { appWrapper.Status with
      Conditions := appWrapper.Status.Conditions ++ [condition]
      Phase := phase } }
  match statusUpdateErr with
  | some e =>
    { res := noResult, err := some e, aw := some aw', cache := cache, triggered := false }
  | none =>
    { res := noResult
      err := none
      aw := some aw'
      cache := cacheInsert cache aw'.UID
        { Phase := aw'.Status.Phase, Conditions := aw'.Status.Conditions.length
          Conflict := none }
      triggered := activeBefore && !isActivePhase phase }

/-- `requeueOrFail`: set requeuing or failed status depending on the retry
count. -/
def requeueOrFail (statusUpdateErr : Option String) (now : Nat) (cache : PhaseCache)
    (appWrapper : AppWrapper) : ROut :=
  if appWrapper.Status.Requeued < appWrapper.Spec.MaxRetries then
    updateStatus statusUpdateErr now cache
      { appWrapper with
        Status := { appWrapper.Status with
          Requeued := appWrapper.Status.Requeued + 1
          LastRequeuingTime := now } }
      AppWrapperPhase.Requeuing
  else
    updateStatus statusUpdateErr now cache appWrapper AppWrapperPhase.Failed

/-- The deletion branch of `Reconcile` (DeletionTimestamp set): delete wrapped
resources, then remove the finalizer, drop the cache entry and trigger
dispatch when an active phase was freed. -/
def deletionReconcile (env : Env) (cache : PhaseCache) (appWrapper : AppWrapper) : ROut :=
  if env.deleteResourcesCount ≠ 0 then
    { res := { Requeue := false, RequeueAfter := some Delay.deletion }
      err := none, aw := some appWrapper, cache := cache, triggered := false }
  else if finalizer ∈ appWrapper.Finalizers then
    match env.updateErr with
    | some e =>
      { res := noResult, err := some e
        aw := some { appWrapper with
          Finalizers := appWrapper.Finalizers.filter fun f => f != finalizer }
        cache := cache, triggered := false }
    | none =>
      { res := noResult, err := none
        aw := some { appWrapper with
          Finalizers := appWrapper.Finalizers.filter fun f => f != finalizer }
        cache := cacheDelete cache appWrapper.UID
        triggered := isActivePhase appWrapper.Status.Phase }
  else
    { res := noResult, err := none, aw := some appWrapper
      cache := cacheDelete cache appWrapper.UID
      triggered := isActivePhase appWrapper.Status.Phase }

/-- The Requeuing branch of `Reconcile`: delete wrapped resources; give up and
fail when deletion is slow; transition to Queued once nothing remains. -/
def requeuingReconcile (cfg : Config) (now : Nat) (env : Env) (cache : PhaseCache)
    (appWrapper : AppWrapper) : ROut :=
  if env.deleteResourcesCount ≠ 0 then
    if isSlowDeletion cfg.deletionTimeout now appWrapper then
      updateStatus env.statusUpdateErr now cache appWrapper AppWrapperPhase.Failed
    else
      { res := { Requeue := false, RequeueAfter := some Delay.deletion }
        err := none, aw := some appWrapper, cache := cache, triggered := false }
  else
    updateStatus env.statusUpdateErr now cache appWrapper AppWrapperPhase.Queued

/-- The Dispatching branch of `Reconcile`: requeue-or-fail on timeout,
otherwise parse and create the wrapped resources and transition to Running. -/
def dispatchingReconcile (cfg : Config) (now : Nat) (env : Env) (cache : PhaseCache)
    (appWrapper : AppWrapper) : ROut :=
  if isSlowCreation cfg.creationTimeout now appWrapper then
    requeueOrFail env.statusUpdateErr now cache appWrapper
  else if env.parseErr then
    updateStatus env.statusUpdateErr now cache appWrapper AppWrapperPhase.Failed
  else
    match env.createErr with
    | some e =>
      { res := noResult, err := some e, aw := some appWrapper, cache := cache
        triggered := false }
    | none => updateStatus env.statusUpdateErr now cache appWrapper AppWrapperPhase.Running

/-- The Running branch of `Reconcile`: check AppWrapper health from the pod
counts. -/
def runningReconcile (cfg : Config) (now : Nat) (env : Env) (cache : PhaseCache)
    (appWrapper : AppWrapper) : ROut :=
  match env.monitorPods with
  | Except.error e =>
    { res := noResult, err := some e, aw := some appWrapper, cache := cache
      triggered := false }
  | Except.ok counts =>
    if counts.Failed > 0 ∨ (isSlowCreation cfg.creationTimeout now appWrapper = true
        ∧ (counts.Other > 0 ∨ counts.Running < appWrapper.Spec.MinPods)) then
      requeueOrFail env.statusUpdateErr now cache appWrapper
    else if appWrapper.Spec.MinPods > 0 ∧ counts.Succeeded ≥ appWrapper.Spec.MinPods
        ∧ counts.Running = 0 ∧ counts.Other = 0 then
      updateStatus env.statusUpdateErr now cache appWrapper AppWrapperPhase.Succeeded
    else if isSlowCreation cfg.creationTimeout now appWrapper = false then
      { res := { Requeue := false, RequeueAfter := some Delay.creation }
        err := none, aw := some appWrapper, cache := cache, triggered := false }
    else
      { res := noResult, err := none, aw := some appWrapper, cache := cache
        triggered := false }

/-- The default (empty phase) branch of `Reconcile`: add the finalizer,
persist, then set queued status. -/
def emptyReconcile (env : Env) (now : Nat) (cache : PhaseCache)
    (appWrapper : AppWrapper) : ROut :=
  if finalizer ∈ appWrapper.Finalizers then
    updateStatus env.statusUpdateErr now cache appWrapper AppWrapperPhase.Queued
  else
    match env.updateErr with
    | some e =>
      { res := noResult, err := some e
        aw := some { appWrapper with Finalizers := appWrapper.Finalizers ++ [finalizer] }
        cache := cache, triggered := false }
    | none =>
      updateStatus env.statusUpdateErr now cache
        { appWrapper with Finalizers := appWrapper.Finalizers ++ [finalizer] }
        AppWrapperPhase.Queued

/-- A normal reconciliation after `Get` and `checkCache` succeeded: the
deletion branch, then the phase switch. -/
def normalReconcile (cfg : Config) (now : Nat) (env : Env) (cache : PhaseCache)
    (appWrapper : AppWrapper) : ROut :=
  if appWrapper.DeletionTimestamp.isSome then
    deletionReconcile env cache appWrapper
  else
    match appWrapper.Status.Phase with
    | AppWrapperPhase.Succeeded =>
      { res := noResult, err := none, aw := some appWrapper, cache := cache
        triggered := false }
    | AppWrapperPhase.Failed =>
      { res := noResult, err := none, aw := some appWrapper, cache := cache
        triggered := false }
    | AppWrapperPhase.Queued =>
      { res := noResult, err := none, aw := some appWrapper, cache := cache
        triggered := true }
    | AppWrapperPhase.Requeuing => requeuingReconcile cfg now env cache appWrapper
    | AppWrapperPhase.Dispatching => dispatchingReconcile cfg now env cache appWrapper
    | AppWrapperPhase.Running => runningReconcile cfg now env cache appWrapper
    | AppWrapperPhase.empty => emptyReconcile env now cache appWrapper

/-- The `req == "*/*"` branch of `Reconcile`: find the next AppWrapper to
dispatch and dispatch it. -/
def dispatchNextReconcile (cfg : Config) (now : Nat) (env : Env)
    (cache : PhaseCache) : ROut :=
  match env.dispatchNext with
  | Except.error e =>
    { res := noResult, err := some e, aw := none, cache := cache, triggered := false }
  | Except.ok none =>
    { res := { Requeue := false, RequeueAfter := some Delay.dispatch }
      err := none, aw := none, cache := cache, triggered := false }
  | Except.ok (some (appWrapper, last)) =>
    match checkCache now cfg.cacheConflictTimeout cache appWrapper with
    | (cache', some e) =>
      { res := noResult, err := some e, aw := none, cache := cache', triggered := false }
    | (cache', none) =>
      if appWrapper.Status.Phase ≠ AppWrapperPhase.Queued then
        { res := noResult, err := some "not queued", aw := none, cache := cache'
          triggered := false }
      else
        let u := updateStatus env.statusUpdateErr now cache'
          { appWrapper with
            Status := { appWrapper.Status with LastDispatchTime := now } }
          AppWrapperPhase.Dispatching
        match u.err with
        | some _ => u
        | none =>
          if last then
            { u with res := { Requeue := false, RequeueAfter := some Delay.dispatch } }
          else
            { u with res := { Requeue := true, RequeueAfter := none } }

/-- A reconciliation request. -/
structure Request where
  Namespace : String
  Name : String
deriving DecidableEq

/-- `Reconcile`: reconcile one AppWrapper or dispatch the next AppWrapper. -/
def Reconcile (cfg : Config) (now : Nat) (env : Env) (cache : PhaseCache)
    (req : Request) : ROut :=
  if req.Name = "*" then
    dispatchNextReconcile cfg now env cache
  else
    match env.getResult with
    | GetOutcome.found appWrapper =>
      match checkCache now cfg.cacheConflictTimeout cache appWrapper with
      | (cache', some e) =>
        { res := noResult, err := some e, aw := none, cache := cache', triggered := false }
      | (cache', none) => normalReconcile cfg now env cache' appWrapper
    | GetOutcome.notFound =>
      { res := noResult, err := none, aw := none, cache := cache, triggered := false }
    | GetOutcome.transientErr _ =>
      { res := noResult, err := none, aw := none, cache := cache, triggered := false }

/-! ## Helper lemmas on the phase cache and on `updateStatus` -/

theorem cacheLookup_delete (cache : PhaseCache) (uid : Nat) :
    cacheLookup (cacheDelete cache uid) uid = none := by
  induction cache with
  | nil => rfl
  | cons p rest ih =>
    unfold cacheDelete at ih ⊢
    rw [List.filter_cons]
    by_cases h : p.1 = uid
    · simp [h, ih]
    · simp [h, cacheLookup, ih]

theorem cacheLookup_insert (cache : PhaseCache) (uid : Nat) (e : CachedAppWrapper) :
    cacheLookup (cacheInsert cache uid e) uid = some e := by
  simp [cacheInsert, cacheLookup]

/-- The in-memory AppWrapper `updateStatus` leaves behind: the transition
condition appended and the phase set. -/
theorem updateStatus_aw (e : Option String) (now : Nat) (cache : PhaseCache)
    (appWrapper : AppWrapper) (phase : AppWrapperPhase) :
    (updateStatus e now cache appWrapper phase).aw = some { appWrapper with
      Status := { appWrapper.Status with
        Conditions := appWrapper.Status.Conditions ++
          [{ LastTransitionTime :=
              if phase = AppWrapperPhase.Dispatching then appWrapper.Status.LastDispatchTime
              else if phase = AppWrapperPhase.Requeuing then appWrapper.Status.LastRequeuingTime
              else now
             Reason := phaseString phase }]
        Phase := phase } } := by
  cases e <;> rfl

/-- The AppWrapper `requeueOrFail` leaves behind is in phase Requeuing or
Failed. -/
theorem requeueOrFail_aw_phase (e : Option String) (now : Nat) (cache : PhaseCache)
    (appWrapper : AppWrapper) :
    ∀ a, (requeueOrFail e now cache appWrapper).aw = some a →
      a.Status.Phase = AppWrapperPhase.Requeuing ∨ a.Status.Phase = AppWrapperPhase.Failed := by
  intro a ha
  unfold requeueOrFail at ha
  by_cases h : appWrapper.Status.Requeued < appWrapper.Spec.MaxRetries
  · rw [if_pos h, updateStatus_aw] at ha
    obtain rfl : _ = a := Option.some.inj ha
    left
    rfl
  · rw [if_neg h, updateStatus_aw] at ha
    obtain rfl : _ = a := Option.some.inj ha
    right
    rfl

/-- Unfolding `Reconcile` on a normal (non-sentinel) request whose `Get`
found the AppWrapper and whose cache check passed. -/
theorem Reconcile_normal (cfg : Config) (now : Nat) (env : Env) (cache cache' : PhaseCache)
    (appWrapper : AppWrapper) (req : Request)
    (hreq : req.Name ≠ "*")
    (hget : env.getResult = GetOutcome.found appWrapper)
    (hcc : checkCache now cfg.cacheConflictTimeout cache appWrapper = (cache', none)) :
    Reconcile cfg now env cache req = normalReconcile cfg now env cache' appWrapper := by
  unfold Reconcile
  rw [if_neg hreq, hget]
  dsimp only
  rw [hcc]

/-! ## The claims -/

/-- C2: `checkCache` against the phase cache entry with the snapshot's UID: a
cached condition count above the snapshot's records the first conflict time
(when none is set) and returns an error; a conflict recorded longer ago than
the cache-conflict timeout deletes the entry and returns an error; a smaller
cached count or a differing cached phase deletes the entry and returns an
error; otherwise — also when there is no entry — any recorded conflict is
cleared and no error is returned. -/
theorem checkCache_spec (now tmo : Nat) (cache : PhaseCache) (appWrapper : AppWrapper) :
    (∀ cached, cacheLookup cache appWrapper.UID = some cached →
      (cached.Conditions > appWrapper.Status.Conditions.length →
        (cached.Conflict = none →
          checkCache now tmo cache appWrapper =
            (cacheInsert cache appWrapper.UID { cached with Conflict := some now },
              some "stale reconciler cache")) ∧
        (∀ c0, cached.Conflict = some c0 →
          (now > c0 + tmo →
            (checkCache now tmo cache appWrapper).2 = some "persistent cache conflict" ∧
            cacheLookup (checkCache now tmo cache appWrapper).1 appWrapper.UID = none) ∧
          (¬ now > c0 + tmo →
            checkCache now tmo cache appWrapper = (cache, some "stale reconciler cache")))) ∧
      (cached.Conditions ≤ appWrapper.Status.Conditions.length →
        ((cached.Conditions < appWrapper.Status.Conditions.length ∨
            cached.Phase ≠ appWrapper.Status.Phase) →
          (checkCache now tmo cache appWrapper).2 = some "stale phase cache" ∧
          cacheLookup (checkCache now tmo cache appWrapper).1 appWrapper.UID = none) ∧
        (cached.Conditions = appWrapper.Status.Conditions.length →
          cached.Phase = appWrapper.Status.Phase →
          (checkCache now tmo cache appWrapper).2 = none ∧
          cacheLookup (checkCache now tmo cache appWrapper).1 appWrapper.UID =
            some { cached with Conflict := none }))) ∧
    (cacheLookup cache appWrapper.UID = none →
      checkCache now tmo cache appWrapper = (cache, none)) := by
  constructor
  · intro cached hl
    constructor
    · intro hgt
      constructor
      · intro hco
        unfold checkCache
        rw [hl]
        dsimp only
        rw [if_pos hgt, hco]
      · intro c0 hco
        constructor
        · intro hafter
          unfold checkCache
          rw [hl]
          dsimp only
          rw [if_pos hgt, hco]
          dsimp only
          rw [if_pos hafter]
          exact ⟨rfl, cacheLookup_delete cache appWrapper.UID⟩
        · intro hafter
          unfold checkCache
          rw [hl]
          dsimp only
          rw [if_pos hgt, hco]
          dsimp only
          rw [if_neg hafter]
    · intro hle
      constructor
      · intro hor
        unfold checkCache
        rw [hl]
        dsimp only
        rw [if_neg (by omega), if_pos hor]
        exact ⟨rfl, cacheLookup_delete cache appWrapper.UID⟩
      · intro heq hph
        unfold checkCache
        rw [hl]
        dsimp only
        rw [if_neg (by omega), if_neg (by rw [heq, hph]; simp)]
        exact ⟨rfl, cacheLookup_insert cache appWrapper.UID _⟩
  · intro hl
    unfold checkCache
    rw [hl]

/-- C3: `requeueOrFail` increments Requeued, stamps LastRequeuingTime with the
current time and transitions to Requeuing while Requeued is below MaxRetries,
and otherwise transitions to Failed; consequently a Requeued count that is at
most MaxRetries stays at most MaxRetries. -/
theorem requeueOrFail_spec (e : Option String) (now : Nat) (cache : PhaseCache)
    (appWrapper : AppWrapper) :
    (appWrapper.Status.Requeued < appWrapper.Spec.MaxRetries →
      requeueOrFail e now cache appWrapper =
        updateStatus e now cache
          { appWrapper with
            Status := { appWrapper.Status with
              Requeued := appWrapper.Status.Requeued + 1
              LastRequeuingTime := now } }
          AppWrapperPhase.Requeuing) ∧
    (appWrapper.Spec.MaxRetries ≤ appWrapper.Status.Requeued →
      requeueOrFail e now cache appWrapper =
        updateStatus e now cache appWrapper AppWrapperPhase.Failed) ∧
    (appWrapper.Status.Requeued ≤ appWrapper.Spec.MaxRetries →
      ∀ a, (requeueOrFail e now cache appWrapper).aw = some a →
        a.Status.Requeued ≤ appWrapper.Spec.MaxRetries) := by
  refine ⟨fun h => by unfold requeueOrFail; rw [if_pos h],
    fun h => by unfold requeueOrFail; rw [if_neg (not_lt.mpr h)],
    fun hle a ha => ?_⟩
  unfold requeueOrFail at ha
  by_cases h : appWrapper.Status.Requeued < appWrapper.Spec.MaxRetries
  · rw [if_pos h, updateStatus_aw] at ha
    obtain rfl : _ = a := Option.some.inj ha
    show appWrapper.Status.Requeued + 1 ≤ appWrapper.Spec.MaxRetries
    omega
  · rw [if_neg h, updateStatus_aw] at ha
    obtain rfl : _ = a := Option.some.inj ha
    exact hle

/-- C7: a successful `updateStatus` appends exactly one condition, whose
reason is the new phase, and sets the phase to it — so the condition count
grows by one (it never decreases) and the phase equals the reason of the last
condition — stores the new phase and condition count in the phase cache under
the UID, and triggers dispatch-next exactly when an active phase was left for
an inactive one. -/
theorem updateStatus_spec (now : Nat) (cache : PhaseCache) (appWrapper : AppWrapper)
    (phase : AppWrapperPhase) :
    ∃ a, (updateStatus none now cache appWrapper phase).aw = some a ∧
      (∃ c, a.Status.Conditions = appWrapper.Status.Conditions ++ [c] ∧
        c.Reason = phaseString phase) ∧
      a.Status.Conditions.length = appWrapper.Status.Conditions.length + 1 ∧
      a.Status.Phase = phase ∧
      a.Status.Conditions.getLast?.map AppWrapperCondition.Reason =
        some (phaseString a.Status.Phase) ∧
      cacheLookup (updateStatus none now cache appWrapper phase).cache appWrapper.UID =
        some { Phase := phase, Conditions := appWrapper.Status.Conditions.length + 1
               Conflict := none } ∧
      (updateStatus none now cache appWrapper phase).triggered =
        (isActivePhase appWrapper.Status.Phase && !isActivePhase phase) := by
  refine ⟨_, updateStatus_aw none now cache appWrapper phase, ⟨_, rfl, rfl⟩, by simp, rfl,
    by simp, ?_, rfl⟩
  show cacheLookup (cacheInsert cache appWrapper.UID _) appWrapper.UID = _
  rw [cacheLookup_insert]
  simp

/-- C9: the condition `updateStatus` appends for a Dispatching transition
carries `status.LastDispatchTime` as its timestamp, and the one for a
Requeuing transition carries `status.LastRequeuingTime` — not the wall-clock
time of the write — so those status fields and the condition log agree. -/
theorem updateStatus_condition_times (now : Nat) (cache : PhaseCache)
    (appWrapper : AppWrapper) :
    (∃ a, (updateStatus none now cache appWrapper AppWrapperPhase.Dispatching).aw = some a ∧
      a.Status.LastDispatchTime = appWrapper.Status.LastDispatchTime ∧
      a.Status.Conditions.getLast? = some
        { LastTransitionTime := a.Status.LastDispatchTime
          Reason := phaseString AppWrapperPhase.Dispatching }) ∧
    (∃ a, (updateStatus none now cache appWrapper AppWrapperPhase.Requeuing).aw = some a ∧
      a.Status.LastRequeuingTime = appWrapper.Status.LastRequeuingTime ∧
      a.Status.Conditions.getLast? = some
        { LastTransitionTime := a.Status.LastRequeuingTime
          Reason := phaseString AppWrapperPhase.Requeuing }) := by
  constructor
  · exact ⟨_, updateStatus_aw none now cache appWrapper AppWrapperPhase.Dispatching, rfl,
      by simp⟩
  · exact ⟨_, updateStatus_aw none now cache appWrapper AppWrapperPhase.Requeuing, rfl,
      by simp⟩

/-- C1: Running-phase reconciliation of an AppWrapper that is not being
deleted: with pod counts and `slow` meaning the creation timeout has passed
since LastDispatchTime — if any pod failed, or slow with leftover Other pods
or fewer than MinPods running, requeue-or-fail is invoked; else if MinPods is
positive, at least MinPods pods succeeded and no pod is Running or Other, the
AppWrapper transitions to Succeeded; else a not-slow reconciliation requeues
after the creation delay, and a slow one returns with no requeue. -/
theorem reconcile_running_spec (cfg : Config) (now : Nat) (env : Env)
    (cache cache' : PhaseCache) (appWrapper : AppWrapper) (req : Request)
    (counts : PodCounts)
    (hreq : req.Name ≠ "*")
    (hget : env.getResult = GetOutcome.found appWrapper)
    (hcc : checkCache now cfg.cacheConflictTimeout cache appWrapper = (cache', none))
    (hdel : appWrapper.DeletionTimestamp = none)
    (hphase : appWrapper.Status.Phase = AppWrapperPhase.Running)
    (hmon : env.monitorPods = Except.ok counts) :
    ((counts.Failed > 0 ∨ (isSlowCreation cfg.creationTimeout now appWrapper = true
        ∧ (counts.Other > 0 ∨ counts.Running < appWrapper.Spec.MinPods))) →
      Reconcile cfg now env cache req =
        requeueOrFail env.statusUpdateErr now cache' appWrapper) ∧
    (¬ (counts.Failed > 0 ∨ (isSlowCreation cfg.creationTimeout now appWrapper = true
        ∧ (counts.Other > 0 ∨ counts.Running < appWrapper.Spec.MinPods))) →
      (appWrapper.Spec.MinPods > 0 ∧ counts.Succeeded ≥ appWrapper.Spec.MinPods
        ∧ counts.Running = 0 ∧ counts.Other = 0) →
      Reconcile cfg now env cache req =
        updateStatus env.statusUpdateErr now cache' appWrapper AppWrapperPhase.Succeeded) ∧
    (¬ (counts.Failed > 0 ∨ (isSlowCreation cfg.creationTimeout now appWrapper = true
        ∧ (counts.Other > 0 ∨ counts.Running < appWrapper.Spec.MinPods))) →
      ¬ (appWrapper.Spec.MinPods > 0 ∧ counts.Succeeded ≥ appWrapper.Spec.MinPods
        ∧ counts.Running = 0 ∧ counts.Other = 0) →
      isSlowCreation cfg.creationTimeout now appWrapper = false →
      Reconcile cfg now env cache req =
        { res := { Requeue := false, RequeueAfter := some Delay.creation }
          err := none, aw := some appWrapper, cache := cache', triggered := false }) ∧
    (¬ (counts.Failed > 0 ∨ (isSlowCreation cfg.creationTimeout now appWrapper = true
        ∧ (counts.Other > 0 ∨ counts.Running < appWrapper.Spec.MinPods))) →
      ¬ (appWrapper.Spec.MinPods > 0 ∧ counts.Succeeded ≥ appWrapper.Spec.MinPods
        ∧ counts.Running = 0 ∧ counts.Other = 0) →
      isSlowCreation cfg.creationTimeout now appWrapper = true →
      Reconcile cfg now env cache req =
        { res := noResult, err := none, aw := some appWrapper, cache := cache'
          triggered := false }) := by
  rw [Reconcile_normal cfg now env cache cache' appWrapper req hreq hget hcc]
  unfold normalReconcile
  rw [hdel]
  simp only [Option.isSome_none, Bool.false_eq_true, if_false]
  rw [hphase]
  dsimp only
  unfold runningReconcile
  rw [hmon]
  dsimp only
  refine ⟨fun h1 => by rw [if_pos h1],
    fun h1 h2 => by rw [if_neg h1, if_pos h2],
    fun h1 h2 h3 => by rw [if_neg h1, if_neg h2, if_pos h3],
    fun h1 h2 h3 => by rw [if_neg h1, if_neg h2, if_neg (by simp [h3])]⟩

/-- C6: Requeuing-phase reconciliation of an AppWrapper that is not being
deleted: the wrapped resources are deleted; while some remain it transitions
to Failed when the deletion timeout has passed since LastRequeuingTime and
otherwise requeues after the deletion delay with no phase change; once none
remain it transitions to Queued. -/
theorem reconcile_requeuing_spec (cfg : Config) (now : Nat) (env : Env)
    (cache cache' : PhaseCache) (appWrapper : AppWrapper) (req : Request)
    (hreq : req.Name ≠ "*")
    (hget : env.getResult = GetOutcome.found appWrapper)
    (hcc : checkCache now cfg.cacheConflictTimeout cache appWrapper = (cache', none))
    (hdel : appWrapper.DeletionTimestamp = none)
    (hphase : appWrapper.Status.Phase = AppWrapperPhase.Requeuing) :
    (env.deleteResourcesCount ≠ 0 →
      isSlowDeletion cfg.deletionTimeout now appWrapper = true →
      Reconcile cfg now env cache req =
        updateStatus env.statusUpdateErr now cache' appWrapper AppWrapperPhase.Failed) ∧
    (env.deleteResourcesCount ≠ 0 →
      isSlowDeletion cfg.deletionTimeout now appWrapper = false →
      Reconcile cfg now env cache req =
        { res := { Requeue := false, RequeueAfter := some Delay.deletion }
          err := none, aw := some appWrapper, cache := cache', triggered := false }) ∧
    (env.deleteResourcesCount = 0 →
      Reconcile cfg now env cache req =
        updateStatus env.statusUpdateErr now cache' appWrapper AppWrapperPhase.Queued) := by
  rw [Reconcile_normal cfg now env cache cache' appWrapper req hreq hget hcc]
  unfold normalReconcile
  rw [hdel]
  simp only [Option.isSome_none, Bool.false_eq_true, if_false]
  rw [hphase]
  dsimp only
  unfold requeuingReconcile
  refine ⟨fun h1 h2 => by rw [if_pos h1, if_pos h2],
    fun h1 h2 => by rw [if_pos h1, if_neg (by simp [h2])],
    fun h1 => by rw [if_neg (by simp [h1])]⟩

/-- C10: with `spec.MinPods = 0` the Running-phase reconciliation never
transitions the AppWrapper to Succeeded — with no failed pods and no creation
timeout it just requeues the check after the creation delay — so Succeeded is
reachable only with strictly positive MinPods. -/
theorem reconcile_running_minpods_zero (cfg : Config) (now : Nat) (env : Env)
    (cache cache' : PhaseCache) (appWrapper : AppWrapper) (req : Request)
    (hreq : req.Name ≠ "*")
    (hget : env.getResult = GetOutcome.found appWrapper)
    (hcc : checkCache now cfg.cacheConflictTimeout cache appWrapper = (cache', none))
    (hdel : appWrapper.DeletionTimestamp = none)
    (hphase : appWrapper.Status.Phase = AppWrapperPhase.Running)
    (hmin : appWrapper.Spec.MinPods = 0) :
    (∀ a, (Reconcile cfg now env cache req).aw = some a →
      a.Status.Phase ≠ AppWrapperPhase.Succeeded) ∧
    (∀ counts, env.monitorPods = Except.ok counts → counts.Failed ≤ 0 →
      isSlowCreation cfg.creationTimeout now appWrapper = false →
      Reconcile cfg now env cache req =
        { res := { Requeue := false, RequeueAfter := some Delay.creation }
          err := none, aw := some appWrapper, cache := cache', triggered := false }) := by
  rw [Reconcile_normal cfg now env cache cache' appWrapper req hreq hget hcc]
  unfold normalReconcile
  rw [hdel]
  simp only [Option.isSome_none, Bool.false_eq_true, if_false]
  rw [hphase]
  dsimp only
  unfold runningReconcile
  constructor
  · intro a ha
    revert ha
    cases hm : env.monitorPods with
    | error e =>
      intro ha
      obtain rfl : _ = a := Option.some.inj ha
      rw [hphase]
      exact fun h => by cases h
    | ok counts =>
      dsimp only
      by_cases h1 : counts.Failed > 0 ∨ (isSlowCreation cfg.creationTimeout now appWrapper = true
          ∧ (counts.Other > 0 ∨ counts.Running < appWrapper.Spec.MinPods))
      · rw [if_pos h1]
        intro ha
        rcases requeueOrFail_aw_phase env.statusUpdateErr now cache' appWrapper a ha with h | h <;>
          rw [h] <;> exact fun hh => by cases hh
      · rw [if_neg h1, if_neg (by rw [hmin]; rintro ⟨h, -⟩; exact absurd h (by norm_num))]
        by_cases h3 : isSlowCreation cfg.creationTimeout now appWrapper = false
        · rw [if_pos h3]
          intro ha
          obtain rfl : _ = a := Option.some.inj ha
          rw [hphase]
          exact fun h => by cases h
        · rw [if_neg h3]
          intro ha
          obtain rfl : _ = a := Option.some.inj ha
          rw [hphase]
          exact fun h => by cases h
  · intro counts hm hF h3
    rw [hm]
    dsimp only
    rw [if_neg (by rintro (h | ⟨hs, -⟩); omega; rw [h3] at hs; cases hs),
      if_neg (by rw [hmin]; rintro ⟨h, -⟩; exact absurd h (by norm_num)), if_pos h3]

/-- C4: a reconciliation for the sentinel name `*`: with no dispatch
candidate it requeues after the dispatch delay; a candidate that passes the
cache check but is not Queued yields an internal error with no status write;
a Queued candidate gets LastDispatchTime set to now and phase Dispatching
written, after which the reconciler requeues immediately when more candidates
may follow and requeues after the dispatch delay when it was the last. -/
theorem reconcile_dispatch_spec (cfg : Config) (now : Nat) (env : Env)
    (cache : PhaseCache) (req : Request) (hreq : req.Name = "*") :
    (env.dispatchNext = Except.ok none →
      Reconcile cfg now env cache req =
        { res := { Requeue := false, RequeueAfter := some Delay.dispatch }
          err := none, aw := none, cache := cache, triggered := false }) ∧
    (∀ appWrapper last cache',
      env.dispatchNext = Except.ok (some (appWrapper, last)) →
      checkCache now cfg.cacheConflictTimeout cache appWrapper = (cache', none) →
      (appWrapper.Status.Phase ≠ AppWrapperPhase.Queued →
        Reconcile cfg now env cache req =
          { res := noResult, err := some "not queued", aw := none, cache := cache'
            triggered := false }) ∧
      (appWrapper.Status.Phase = AppWrapperPhase.Queued →
        env.statusUpdateErr = none →
        ∃ a, (Reconcile cfg now env cache req).aw = some a ∧
          a.Status.LastDispatchTime = now ∧
          a.Status.Phase = AppWrapperPhase.Dispatching ∧
          (Reconcile cfg now env cache req).err = none ∧
          (Reconcile cfg now env cache req).res =
            (if last then { Requeue := false, RequeueAfter := some Delay.dispatch }
              else { Requeue := true, RequeueAfter := none }))) := by
  unfold Reconcile
  rw [if_pos hreq]
  unfold dispatchNextReconcile
  constructor
  · intro h
    rw [h]
  · intro appWrapper last cache' hd hcc
    rw [hd]
    dsimp only
    rw [hcc]
    dsimp only
    constructor
    · intro hq
      rw [if_pos hq]
    · intro hq he
      rw [if_neg (by simp [hq]), he]
      cases last <;>
        exact ⟨_, rfl, rfl, rfl, rfl, rfl⟩

/-- C5: reconciliation of an AppWrapper with a deletion timestamp: while the
wrapped-resource deletion reports work still pending, it requeues after the
deletion delay touching neither finalizer nor cache; once nothing remains it
removes the finalizer, persists the update, deletes the phase-cache entry for
the UID, and triggers dispatch-next exactly when the AppWrapper's phase was
active (Dispatching, Running or Requeuing). -/
theorem reconcile_deletion_spec (cfg : Config) (now : Nat) (env : Env)
    (cache cache' : PhaseCache) (appWrapper : AppWrapper) (req : Request)
    (hreq : req.Name ≠ "*")
    (hget : env.getResult = GetOutcome.found appWrapper)
    (hcc : checkCache now cfg.cacheConflictTimeout cache appWrapper = (cache', none))
    (hdel : appWrapper.DeletionTimestamp.isSome = true) :
    (env.deleteResourcesCount ≠ 0 →
      Reconcile cfg now env cache req =
        { res := { Requeue := false, RequeueAfter := some Delay.deletion }
          err := none, aw := some appWrapper, cache := cache', triggered := false }) ∧
    (env.deleteResourcesCount = 0 → env.updateErr = none →
      ∃ a, (Reconcile cfg now env cache req).aw = some a ∧
        finalizer ∉ a.Finalizers ∧
        (Reconcile cfg now env cache req).err = none ∧
        (Reconcile cfg now env cache req).res = noResult ∧
        cacheLookup (Reconcile cfg now env cache req).cache appWrapper.UID = none ∧
        (Reconcile cfg now env cache req).triggered =
          isActivePhase appWrapper.Status.Phase) := by
  rw [Reconcile_normal cfg now env cache cache' appWrapper req hreq hget hcc]
  unfold normalReconcile
  rw [if_pos hdel]
  unfold deletionReconcile
  constructor
  · intro h
    rw [if_pos h]
  · intro h0 hu
    rw [if_neg (by simp [h0])]
    by_cases hf : finalizer ∈ appWrapper.Finalizers
    · rw [if_pos hf, hu]
      dsimp only
      refine ⟨_, rfl, ?_, rfl, rfl, cacheLookup_delete cache' appWrapper.UID, rfl⟩
      simp [List.mem_filter]
    · rw [if_neg hf]
      exact ⟨appWrapper, rfl, hf, rfl, rfl, cacheLookup_delete cache' appWrapper.UID, rfl⟩

/-- C8 (amended): during a normal reconciliation every failure of the
object-store get — not-found and transient errors alike — is treated as a
silent no-op: the reconciler returns no error and no requeue. -/
theorem reconcile_get_error_noop (cfg : Config) (now : Nat) (env : Env)
    (cache : PhaseCache) (req : Request) (hreq : req.Name ≠ "*") :
    (env.getResult = GetOutcome.notFound →
      Reconcile cfg now env cache req =
        { res := noResult, err := none, aw := none, cache := cache, triggered := false }) ∧
    (∀ msg, env.getResult = GetOutcome.transientErr msg →
      Reconcile cfg now env cache req =
        { res := noResult, err := none, aw := none, cache := cache, triggered := false }) := by
  constructor
  · intro h
    unfold Reconcile
    rw [if_neg hreq, h]
  · intro msg h
    unfold Reconcile
    rw [if_neg hreq, h]

/-! ## Concrete instances, used by the closed witnesses below -/

/-- A sample timeout configuration. -/
def cfg1 : Config :=
  { creationTimeout := 10, deletionTimeout := 10, cacheConflictTimeout := 10 }

/-- A baseline environment: nothing found, nothing to dispatch, every store
call succeeding. -/
def env0 : Env :=
  { getResult := GetOutcome.notFound
    dispatchNext := Except.ok none
    deleteResourcesCount := 0
    monitorPods := Except.ok { Failed := 0, Other := 0, Running := 1, Succeeded := 0 }
    parseErr := false
    createErr := none
    updateErr := none
    statusUpdateErr := none }

/-- A sample Running AppWrapper. -/
def awRun : AppWrapper :=
  { UID := 7, DeletionTimestamp := none, Finalizers := [finalizer]
    Spec := { MinPods := 1, MaxRetries := 2 }
    Status := { Phase := AppWrapperPhase.Running, Requeued := 0, LastDispatchTime := 0
                LastRequeuingTime := 0, Conditions := [] } }

/-- A sample Queued AppWrapper. -/
def awQ : AppWrapper :=
  { UID := 3, DeletionTimestamp := none, Finalizers := [finalizer]
    Spec := { MinPods := 1, MaxRetries := 2 }
    Status := { Phase := AppWrapperPhase.Queued, Requeued := 0, LastDispatchTime := 0
                LastRequeuingTime := 0, Conditions := [] } }

/-- A sample Running AppWrapper marked for deletion. -/
def awDel : AppWrapper :=
  { UID := 4, DeletionTimestamp := some 1, Finalizers := [finalizer]
    Spec := { MinPods := 1, MaxRetries := 2 }
    Status := { Phase := AppWrapperPhase.Running, Requeued := 0, LastDispatchTime := 0
                LastRequeuingTime := 0, Conditions := [] } }

/-- A sample Requeuing AppWrapper. -/
def awRq : AppWrapper :=
  { UID := 5, DeletionTimestamp := none, Finalizers := [finalizer]
    Spec := { MinPods := 1, MaxRetries := 2 }
    Status := { Phase := AppWrapperPhase.Requeuing, Requeued := 0, LastDispatchTime := 0
                LastRequeuingTime := 0, Conditions := [] } }

/-- The sample Running AppWrapper with `MinPods = 0`. -/
def awRun0 : AppWrapper := { awRun with Spec := { MinPods := 0, MaxRetries := 2 } }

/-- C1 witness: a concrete Running AppWrapper with one failed pod goes through
requeue-or-fail. -/
theorem reconcile_running_spec_witness :
    Reconcile cfg1 0
      { env0 with getResult := GetOutcome.found awRun
                  monitorPods := Except.ok { Failed := 1, Other := 0, Running := 0, Succeeded := 0 } }
      [] { Namespace := "ns", Name := "aw" } =
      requeueOrFail none 0 [] awRun :=
  (reconcile_running_spec cfg1 0
    { env0 with getResult := GetOutcome.found awRun
                monitorPods := Except.ok { Failed := 1, Other := 0, Running := 0, Succeeded := 0 } }
    [] [] awRun { Namespace := "ns", Name := "aw" }
    { Failed := 1, Other := 0, Running := 0, Succeeded := 0 }
    (by decide) rfl rfl rfl rfl rfl).1 (Or.inl (by norm_num))

/-- C4 witness: a concrete Queued candidate is dispatched and, being the last,
the next dispatch attempt is scheduled after the dispatch delay. -/
theorem reconcile_dispatch_spec_witness :
    ∃ a, (Reconcile cfg1 5 { env0 with dispatchNext := Except.ok (some (awQ, true)) } []
        { Namespace := "*", Name := "*" }).aw = some a ∧
      a.Status.LastDispatchTime = 5 ∧
      a.Status.Phase = AppWrapperPhase.Dispatching ∧
      (Reconcile cfg1 5 { env0 with dispatchNext := Except.ok (some (awQ, true)) } []
        { Namespace := "*", Name := "*" }).err = none ∧
      (Reconcile cfg1 5 { env0 with dispatchNext := Except.ok (some (awQ, true)) } []
        { Namespace := "*", Name := "*" }).res =
        (if true then { Requeue := false, RequeueAfter := some Delay.dispatch }
          else { Requeue := true, RequeueAfter := none }) :=
  ((reconcile_dispatch_spec cfg1 5 { env0 with dispatchNext := Except.ok (some (awQ, true)) }
    [] { Namespace := "*", Name := "*" } rfl).2 awQ true [] rfl rfl).2 rfl rfl

/-- C5 witness: a concrete deleted AppWrapper with no wrapped resources left
loses its finalizer and cache entry and triggers dispatch-next (it was
Running). -/
theorem reconcile_deletion_spec_witness :
    ∃ a, (Reconcile cfg1 0 { env0 with getResult := GetOutcome.found awDel } []
        { Namespace := "ns", Name := "aw" }).aw = some a ∧
      finalizer ∉ a.Finalizers ∧
      (Reconcile cfg1 0 { env0 with getResult := GetOutcome.found awDel } []
        { Namespace := "ns", Name := "aw" }).err = none ∧
      (Reconcile cfg1 0 { env0 with getResult := GetOutcome.found awDel } []
        { Namespace := "ns", Name := "aw" }).res = noResult ∧
      cacheLookup (Reconcile cfg1 0 { env0 with getResult := GetOutcome.found awDel } []
        { Namespace := "ns", Name := "aw" }).cache awDel.UID = none ∧
      (Reconcile cfg1 0 { env0 with getResult := GetOutcome.found awDel } []
        { Namespace := "ns", Name := "aw" }).triggered =
        isActivePhase awDel.Status.Phase :=
  (reconcile_deletion_spec cfg1 0 { env0 with getResult := GetOutcome.found awDel } [] []
    awDel { Namespace := "ns", Name := "aw" } (by decide) rfl rfl rfl).2 rfl rfl

/-- C6 witness: a concrete Requeuing AppWrapper with nothing left to delete
transitions to Queued. -/
theorem reconcile_requeuing_spec_witness :
    Reconcile cfg1 0 { env0 with getResult := GetOutcome.found awRq } []
        { Namespace := "ns", Name := "aw" } =
      updateStatus none 0 [] awRq AppWrapperPhase.Queued :=
  (reconcile_requeuing_spec cfg1 0 { env0 with getResult := GetOutcome.found awRq } [] []
    awRq { Namespace := "ns", Name := "aw" } (by decide) rfl rfl rfl rfl).2.2 rfl

/-- C8 witness for the amended claim, at the not-found outcome. -/
theorem reconcile_get_error_noop_witness :
    Reconcile cfg1 0 env0 [] { Namespace := "ns", Name := "aw" } =
      { res := noResult, err := none, aw := none, cache := [], triggered := false } :=
  (reconcile_get_error_noop cfg1 0 env0 [] { Namespace := "ns", Name := "aw" }
    (by decide)).1 rfl

/-- C8 counterexample: a transient store error from Get is swallowed — the
reconciler returns no error and an empty result instead of surfacing it for a
backoff retry. -/
theorem reconcile_get_transient_swallowed :
    (Reconcile cfg1 0 { env0 with getResult := GetOutcome.transientErr "store timeout" }
      [] { Namespace := "ns", Name := "aw" }).err = none ∧
    (Reconcile cfg1 0 { env0 with getResult := GetOutcome.transientErr "store timeout" }
      [] { Namespace := "ns", Name := "aw" }).res = noResult := by
  constructor <;> rfl

/-- C10 witness: a concrete healthy Running AppWrapper with `MinPods = 0`
only gets a recheck after the creation delay. -/
theorem reconcile_running_minpods_zero_witness :
    Reconcile cfg1 0 { env0 with getResult := GetOutcome.found awRun0 } []
        { Namespace := "ns", Name := "aw" } =
      { res := { Requeue := false, RequeueAfter := some Delay.creation }
        err := none, aw := some awRun0, cache := [], triggered := false } :=
  (reconcile_running_minpods_zero cfg1 0 { env0 with getResult := GetOutcome.found awRun0 }
    [] [] awRun0 { Namespace := "ns", Name := "aw" } (by decide) rfl rfl rfl rfl rfl).2
    { Failed := 0, Other := 0, Running := 1, Succeeded := 0 } rfl (by norm_num) rfl

end Mcad
